import Mathlib

/-!
Shallow embedding of src/pcfpd.c, a minimal TCP daemon that serves one static
policy file to every connecting client and then closes the connection.

Bytes are modelled as Nat, files and buffers as List Nat, file paths as opaque
Nat identifiers.  The kernel behaviour of read(2) and write(2) is modelled by
explicit schedules: a read schedule gives, per loop iteration, an upper bound
on how many bytes the kernel delivers (always at least one byte while data
remains, as for a regular file), and a write schedule gives the raw return
value of each write call (negative = error, zero = anomalous, positive =
number of bytes accepted, capped by the requested amount, as write(2) never
transfers more than asked).
-/

/-- MAX_POLICY_LEN from pcfpd.c. -/
def MAX_POLICY_LEN : Nat := 65536

/-- DEFAULT_PORT from pcfpd.c. -/
def DEFAULT_PORT : Nat := 843

/-- Abstraction of the errno values the serving loop distinguishes:
EINTR and EAGAIN are special-cased at the accept call, everything else
is lumped together (carrying its numeric errno code). -/
inductive Errno where
  | eintr
  | eagain
  | other (code : Nat)
  deriving DecidableEq

/-- One observable logging effect of the program.  The constructors whose
name begins with log go through log_line, i.e. the timestamped Logger
writing to the configured log sink; perrorWrite models perror("write") and
stderrZeroWrite models fprintf(stderr, "Wrote 0 bytes?\n"), both of which
write directly to standard error, bypassing the Logger. -/
inductive LogEvent where
  | perrorWrite
  | stderrZeroWrite
  | logClient (peer : Nat)
  | logAcceptErr (e : Errno)
  | logSigint
  | logSighup
  | logSigterm
  deriving DecidableEq

/-- True exactly for the events that are emitted through log_line (the
timestamped Logger attached to the configured log sink). -/
def viaLogger : LogEvent → Bool
  | .perrorWrite => false
  | .stderrZeroWrite => false
  | _ => true

/-- The accumulation loop of read_policy.  `acc` is the bytes read so far
(policy_data up to policy_len), `rest` the not-yet-read remainder of the
file, `sched i + 1` the number of bytes the kernel is willing to deliver at
iteration `i` (at least one while data remains, as for a regular file; the
actual count is further capped by the requested `65536 - policy_len` and by
the bytes remaining, and a read of a regular file returns 0 only at end of
file).  `fuel` bounds the iterations; `readPolicy` below supplies enough
fuel that it is never exhausted. -/
def readPolicyGo (sched : Nat → Nat) : Nat → Nat → List Nat → List Nat → List Nat
  | 0, _, acc, _ => acc
  | fuel + 1, i, acc, rest =>
    if acc.length < MAX_POLICY_LEN then
      let deliv := min (sched i + 1) (min (65536 - acc.length) rest.length)
      if deliv = 0 then acc
      else readPolicyGo sched fuel (i + 1) (acc ++ rest.take deliv) (rest.drop deliv)
    else acc

/-- read_policy from pcfpd.c on the success path (open and read do not
fail): the policy buffer resulting from reading `file`. -/
def readPolicy (sched : Nat → Nat) (file : List Nat) : List Nat :=
  readPolicyGo sched (file.length + 1) 0 [] file

/-- The write loop of send_policy.  `sent` is the count of bytes already
written, `ws i` the raw return value of the write call at iteration `i`:
negative triggers perror("write") and abort, zero triggers the
"Wrote 0 bytes?" stderr message and abort, positive means that many bytes
were accepted (capped by the requested `policy_len - sent`).  Returns the
byte sequence actually written to the client and the emitted log events.
`fuel` bounds the iterations; `sendPolicy` supplies enough. -/
def sendPolicyGo (policy : List Nat) (ws : Nat → Int) : Nat → Nat → Nat → List Nat × List LogEvent
  | 0, _, _ => ([], [])
  | fuel + 1, i, sent =>
    if sent < policy.length then
      if ws i < 0 then ([], [LogEvent.perrorWrite])
      else if ws i = 0 then ([], [LogEvent.stderrZeroWrite])
      else
        let t := min (ws i).toNat (policy.length - sent)
        let r := sendPolicyGo policy ws fuel (i + 1) (sent + t)
        ((policy.drop sent).take t ++ r.1, r.2)
    else ([], [])

/-- send_policy from pcfpd.c: bytes written to the client and log events. -/
def sendPolicy (policy : List Nat) (ws : Nat → Int) : List Nat × List LogEvent :=
  sendPolicyGo policy ws policy.length 0 0

/-- The per-connection part of the serving loop body in main:
log_client / send_policy / close(client).  The Bool records that
close(client) runs; in the source it follows send_policy unconditionally. -/
def handleConnection (policy : List Nat) (ws : Nat → Int) : List Nat × List LogEvent × Bool :=
  ((sendPolicy policy ws).1, (sendPolicy policy ws).2, true)

lemma sendPolicyGo_all_pos (policy : List Nat) (ws : Nat → Int) (hws : ∀ j, 0 < ws j) :
    ∀ (fuel i sent : Nat), policy.length ≤ sent + fuel →
      (sendPolicyGo policy ws fuel i sent).1 = policy.drop sent := by
  intro fuel
  induction fuel with
  | zero =>
    intro i sent h
    simp [sendPolicyGo, List.drop_eq_nil_of_le (by omega : policy.length ≤ sent)]
  | succ fuel ih =>
    intro i sent h
    by_cases hlt : sent < policy.length
    · have hpos := hws i
      have h1 : ¬ ws i < 0 := by omega
      have h2 : ¬ ws i = 0 := by omega
      have ht1 : 1 ≤ min (ws i).toNat (policy.length - sent) := by omega
      simp only [sendPolicyGo, if_pos hlt, if_neg h1, if_neg h2]
      rw [ih (i + 1) (sent + min (ws i).toNat (policy.length - sent)) (by omega)]
      rw [← List.drop_drop, List.take_append_drop]
    · simp [sendPolicyGo, hlt, List.drop_eq_nil_of_le (by omega : policy.length ≤ sent)]

lemma sendPolicy_all_pos (policy : List Nat) (ws : Nat → Int) (hws : ∀ j, 0 < ws j) :
    (sendPolicy policy ws).1 = policy := by
  have h := sendPolicyGo_all_pos policy ws hws policy.length 0 0 (by omega)
  simpa [sendPolicy] using h

lemma sendPolicyGo_is_take (policy : List Nat) (ws : Nat → Int) :
    ∀ (fuel i sent : Nat), ∃ k, (sendPolicyGo policy ws fuel i sent).1 = (policy.drop sent).take k := by
  intro fuel
  induction fuel with
  | zero => intro i sent; exact ⟨0, by simp [sendPolicyGo]⟩
  | succ fuel ih =>
    intro i sent
    by_cases hlt : sent < policy.length
    · by_cases h1 : ws i < 0
      · exact ⟨0, by simp [sendPolicyGo, hlt, h1]⟩
      · by_cases h2 : ws i = 0
        · exact ⟨0, by simp [sendPolicyGo, hlt, h1, h2]⟩
        · obtain ⟨k, hk⟩ := ih (i + 1) (sent + min (ws i).toNat (policy.length - sent))
          refine ⟨min (ws i).toNat (policy.length - sent) + k, ?_⟩
          simp only [sendPolicyGo, if_pos hlt, if_neg h1, if_neg h2]
          rw [List.take_add, hk, List.drop_drop]
    · exact ⟨0, by simp [sendPolicyGo, hlt]⟩

lemma take_take_len (l : List Nat) (k : Nat) : l.take ((l.take k).length) = l.take k := by
  rw [List.length_take]
  rcases Nat.le_total k l.length with h | h
  · rw [Nat.min_eq_left h]
  · rw [Nat.min_eq_right h, List.take_length, List.take_of_length_le h]

lemma sendPolicy_is_take (policy : List Nat) (ws : Nat → Int) :
    (sendPolicy policy ws).1 = policy.take (sendPolicy policy ws).1.length := by
  obtain ⟨k, hk⟩ := sendPolicyGo_is_take policy ws policy.length 0 0
  simp only [sendPolicy] at hk ⊢
  rw [hk]
  simp only [List.drop_zero] at hk ⊢
  rw [take_take_len]

lemma readPolicyGo_spec (sched : Nat → Nat) :
    ∀ (fuel i : Nat) (acc rest : List Nat),
      rest.length < fuel → acc.length ≤ 65536 →
      readPolicyGo sched fuel i acc rest = acc ++ rest.take (65536 - acc.length) := by
  intro fuel
  induction fuel with
  | zero => intro i acc rest h _; exact absurd h (Nat.not_lt_zero _)
  | succ fuel ih =>
    intro i acc rest hf hacc
    by_cases hlt : acc.length < MAX_POLICY_LEN
    · have hlt65 : acc.length < 65536 := by simpa [MAX_POLICY_LEN] using hlt
      by_cases hrest : rest = []
      · subst hrest
        simp [readPolicyGo, hlt]
      · have hrl : 1 ≤ rest.length := by
          cases rest with
          | nil => exact absurd rfl hrest
          | cons a l => simp
        have hdpos : 1 ≤ min (sched i + 1) (min (65536 - acc.length) rest.length) := by omega
        have hdz : ¬ (min (sched i + 1) (min (65536 - acc.length) rest.length) = 0) := by omega
        simp only [readPolicyGo, if_pos hlt, if_neg hdz]
        set d := min (sched i + 1) (min (65536 - acc.length) rest.length) with hd
        have hdle : d ≤ 65536 - acc.length := by omega
        have hdlr : d ≤ rest.length := by omega
        have hlen : (acc ++ rest.take d).length = acc.length + d := by
          rw [List.length_append, List.length_take]
          omega
        rw [ih (i + 1) _ _ (by rw [List.length_drop]; omega) (by rw [hlen]; omega)]
        rw [hlen, List.append_assoc]
        congr 1
        have he : 65536 - acc.length = d + (65536 - (acc.length + d)) := by omega
        rw [he, List.take_add]
    · have hz : 65536 - acc.length = 0 := by
        have h65 : ¬ acc.length < 65536 := by simpa [MAX_POLICY_LEN] using hlt
        omega
      simp [readPolicyGo, hlt, hz]

lemma readPolicy_take (sched : Nat → Nat) (file : List Nat) :
    readPolicy sched file = file.take 65536 := by
  have h := readPolicyGo_spec sched (file.length + 1) 0 [] file (by omega) (by simp)
  simpa [readPolicy] using h

lemma take_cap_min (l : List Nat) : l.take 65536 = l.take (min l.length 65536) := by
  rcases Nat.le_total l.length 65536 with h | h
  · rw [Nat.min_eq_left h, List.take_length, List.take_of_length_le h]
  · rw [Nat.min_eq_right h]

/-- TCP write behaviour of one accepted connection: its peer address and its
write schedule, or a failed accept call with the observed errno. -/
inductive AcceptResult where
  | conn (peer : Nat) (ws : Nat → Int)
  | err (e : Errno)

/-- The three signals with installed handlers (SIGPIPE is suppressed and
produces no observable effect, so it is not modelled as an event). -/
inductive Sig where
  | int
  | hup
  | term
  deriving DecidableEq

/-- One occurrence observed by the serving loop: either the return of the
blocking accept call, or a signal delivered between loop iterations (the
Running Flag is read only by the loop between iterations). -/
inductive LoopEvent where
  | accept (a : AcceptResult)
  | signal (s : Sig)

/-- Process-wide mutable state relevant to the serving loop: the Running
Flag (static int running) and the loaded policy buffer (policy_data up to
policy_len). -/
structure DaemonState where
  running : Bool
  policy : List Nat
  deriving DecidableEq

/-- sigint_handler: logs and clears the Running Flag. -/
def sigint_handler (st : DaemonState) : DaemonState × List LogEvent :=
  ({ st with running := false }, [LogEvent.logSigint])

/-- sighup_handler: logs and changes nothing. -/
def sighup_handler (st : DaemonState) : DaemonState × List LogEvent :=
  (st, [LogEvent.logSighup])

/-- sigterm_handler: logs and clears the Running Flag. -/
def sigterm_handler (st : DaemonState) : DaemonState × List LogEvent :=
  ({ st with running := false }, [LogEvent.logSigterm])

/-- Dispatch of a delivered signal to its installed handler. -/
def sigHandle : Sig → DaemonState → DaemonState × List LogEvent
  | .int => sigint_handler
  | .hup => sighup_handler
  | .term => sigterm_handler

/-- The serving loop of main, `for (running = 1; running; )`, driven by a
list of observed events.  Returns the final state, the emitted log events
and, per handled connection, the byte sequence written to that client.
On a successful accept: log_client, send_policy, close.  On a failed
accept: log_errno("accept", e) first, then continue on EINTR/EAGAIN
(re-checking the Running Flag at the next iteration) and break on any
other errno. -/
def runLoop : DaemonState → List LoopEvent → DaemonState × List LogEvent × List (List Nat)
  | st, [] => (st, [], [])
  | st, ev :: rest =>
    if st.running = true then
      match ev with
      | .signal s =>
        let p := sigHandle s st
        let t := runLoop p.1 rest
        (t.1, p.2 ++ t.2.1, t.2.2)
      | .accept (.conn peer ws) =>
        let sp := sendPolicy st.policy ws
        let t := runLoop st rest
        (t.1, (LogEvent.logClient peer :: sp.2) ++ t.2.1, sp.1 :: t.2.2)
      | .accept (.err e) =>
        if e = Errno.eintr ∨ e = Errno.eagain then
          let t := runLoop st rest
          (t.1, LogEvent.logAcceptErr e :: t.2.1, t.2.2)
        else (st, [LogEvent.logAcceptErr e], [])
    else (st, [], [])

/-- A loop event whose connection (if it is one) has a write schedule on
which every write call succeeds with a positive byte count. -/
def connWritesOk : LoopEvent → Prop
  | .accept (.conn _ ws) => ∀ i, 0 < ws i
  | _ => True

/-- Command-line options as decoded by getopt("f:p:dl:").  Opt.p carries
the Int that atoi produced from optarg (atoi of a non-numeric string is 0);
file paths are opaque Nat identifiers; Opt.unknown is any flag getopt does
not recognize (getopt returns a question mark, hitting the default case). -/
inductive Opt where
  | p (v : Int)
  | f (path : Nat)
  | l (path : Nat)
  | d
  | unknown
  deriving DecidableEq

/-- The configuration variables of main. -/
structure Config where
  port : Nat
  policyFile : Option Nat
  logFile : Option Nat
  doFork : Bool
  deriving DecidableEq

/-- Initial values in main: port = DEFAULT_PORT, no files, do_fork = 0. -/
def defaultConfig : Config :=
  { port := DEFAULT_PORT, policyFile := none, logFile := none, doFork := false }

/-- The distinct diagnostics main can print on standard error before
exiting with status 1 during option processing. -/
inductive StartupMsg where
  | invalidPort
  | getoptBadFlag
  | missingPolicyFile
  deriving DecidableEq

/-- Result of option processing: either a configuration, or exit status 1
with a diagnostic; the Bool records whether usage() was printed on
standard error. -/
inductive ParseOutcome where
  | ok (c : Config)
  | exit1 (usageShown : Bool) (msg : StartupMsg)
  deriving DecidableEq

/-- The getopt loop of main plus the missing -f check that follows it.
Case 'p' stores atoi(optarg) into an unsigned short, i.e. reduces it
modulo 2^16, and rejects a resulting 0 with "Invalid port" on standard
error (usage() is not called there).  Case 'l' in the source has no break
and falls through into case 'd', so -l also sets do_fork = 1.  The default
case (unrecognized flag) prints usage() and returns 1.  After the loop, a
missing policy file prints its diagnostic plus usage() and returns 1. -/
def parseOpts : List Opt → Config → ParseOutcome
  | [], c =>
    if c.policyFile = none then ParseOutcome.exit1 true StartupMsg.missingPolicyFile
    else ParseOutcome.ok c
  | Opt.p v :: rest, c =>
    if (v % 65536).toNat = 0 then ParseOutcome.exit1 false StartupMsg.invalidPort
    else parseOpts rest { c with port := (v % 65536).toNat }
  | Opt.f path :: rest, c => parseOpts rest { c with policyFile := some path }
  | Opt.l path :: rest, c => parseOpts rest { c with logFile := some path, doFork := true }
  | Opt.d :: rest, c => parseOpts rest { c with doFork := true }
  | Opt.unknown :: _, _ => ParseOutcome.exit1 true StartupMsg.getoptBadFlag

/-- Observable outcome of startup: an exit with a status before the serving
loop (recording whether usage() was printed and whether a listener had been
created by then), or entry into the serving loop with a configuration and
the loaded policy buffer. -/
inductive StartupOutcome where
  | earlyExit (code : Nat) (usageShown : Bool) (listenerCreated : Bool)
  | serving (c : Config) (policy : List Nat)
  deriving DecidableEq

/-- Startup path of main on whose success the serving loop is entered:
option processing, then read_policy, then create_listener (listener
creation and the read syscalls are assumed to succeed; their failure paths
exit before serving and are not needed by the claims).  Any option
processing failure exits with status 1 before create_listener runs. -/
def startupServing (opts : List Opt) (rsched : Nat → Nat) (file : List Nat) : StartupOutcome :=
  match parseOpts opts defaultConfig with
  | ParseOutcome.exit1 u _ => StartupOutcome.earlyExit 1 u false
  | ParseOutcome.ok c => StartupOutcome.serving c (readPolicy rsched file)

/-- A write schedule on which every write call accepts exactly one byte. -/
def wsOne : Nat → Int := fun _ => 1

/-- A write schedule whose first (and every) write call fails. -/
def wsNeg : Nat → Int := fun _ => -1

/-- A read schedule on which the kernel delivers as much as requested. -/
def rsGreedy : Nat → Nat := fun _ => 65535

lemma sigHandle_policy (s : Sig) (st : DaemonState) : (sigHandle s st).1.policy = st.policy := by
  cases s <;> rfl

lemma runLoop_policy (evs : List LoopEvent) :
    ∀ st : DaemonState, (runLoop st evs).1.policy = st.policy := by
  induction evs with
  | nil => intro st; rfl
  | cons ev rest ih =>
    intro st
    by_cases hr : st.running = true
    · cases ev with
      | signal s =>
        simp only [runLoop, if_pos hr]
        rw [ih (sigHandle s st).1, sigHandle_policy]
      | accept a =>
        cases a with
        | conn peer ws =>
          simp only [runLoop, if_pos hr]
          exact ih st
        | err e =>
          by_cases he : e = Errno.eintr ∨ e = Errno.eagain
          · simp only [runLoop, if_pos hr, if_pos he]
            exact ih st
          · simp only [runLoop, if_pos hr, if_neg he]
    · simp only [runLoop, if_neg hr]

lemma runLoop_served (evs : List LoopEvent) :
    ∀ st : DaemonState, (∀ ev ∈ evs, connWritesOk ev) →
      ∀ p ∈ (runLoop st evs).2.2, p = st.policy := by
  induction evs with
  | nil => intro st _ p hp; simp [runLoop] at hp
  | cons ev rest ih =>
    intro st hok p hp
    have hok1 : connWritesOk ev := hok ev (List.mem_cons_self ev rest)
    have hokr : ∀ x ∈ rest, connWritesOk x := fun x hx => hok x (List.mem_cons_of_mem ev hx)
    by_cases hr : st.running = true
    · cases ev with
      | signal s =>
        simp only [runLoop, if_pos hr] at hp
        rw [ih (sigHandle s st).1 hokr p hp, sigHandle_policy]
      | accept a =>
        cases a with
        | conn peer ws =>
          simp only [runLoop, if_pos hr] at hp
          rcases List.mem_cons.mp hp with h | h
          · rw [h]; exact sendPolicy_all_pos st.policy ws hok1
          · exact ih st hokr p h
        | err e =>
          by_cases he : e = Errno.eintr ∨ e = Errno.eagain
          · simp only [runLoop, if_pos hr, if_pos he] at hp
            exact ih st hokr p hp
          · simp only [runLoop, if_pos hr, if_neg he] at hp
            simp at hp
    · simp only [runLoop, if_neg hr] at hp
      simp at hp

lemma pairwise_eq_of_all_eq {α : Type} (c : α) :
    ∀ l : List α, (∀ p ∈ l, p = c) → l.Pairwise Eq := by
  intro l
  induction l with
  | nil => intro _; exact List.Pairwise.nil
  | cons a l ih =>
    intro h
    refine List.Pairwise.cons ?_ (ih fun p hp => h p (List.mem_cons_of_mem a hp))
    intro b hb
    rw [h a (List.mem_cons_self a l), h b (List.mem_cons_of_mem a hb)]

/-- C1: after a successful startup, the byte sequence written to a
connecting client whose transport accepts the writes is exactly the first
min(n, 65536) bytes of the policy file of size n; a file of at most 65536
bytes is served whole and byte-for-byte, a larger one is truncated to its
first 65536 bytes, and the truncation is not an error (startup still
enters the serving loop normally). -/
theorem c1_client_receives_file_head (file : List Nat) (rsched : Nat → Nat)
    (ws : Nat → Int) (hws : ∀ i, 0 < ws i) :
    (handleConnection (readPolicy rsched file) ws).1 = file.take (min file.length 65536)
    ∧ (file.length ≤ 65536 → (handleConnection (readPolicy rsched file) ws).1 = file)
    ∧ startupServing [Opt.f 1] rsched file
        = StartupOutcome.serving { defaultConfig with policyFile := some 1 } (file.take 65536) := by
  have hsend : (handleConnection (readPolicy rsched file) ws).1 = file.take 65536 := by
    show (sendPolicy (readPolicy rsched file) ws).1 = _
    rw [sendPolicy_all_pos _ ws hws, readPolicy_take]
  refine ⟨?_, ?_, ?_⟩
  · rw [hsend, take_cap_min]
  · intro hle
    rw [hsend, List.take_of_length_le hle]
  · simp [startupServing, parseOpts, readPolicy_take]

/-- Witness for C1 at a concrete three-byte file. -/
theorem c1_witness :
    (handleConnection (readPolicy rsGreedy [7, 8, 9]) wsOne).1
      = List.take (min (List.length [7, 8, 9]) 65536) [7, 8, 9] :=
  (c1_client_receives_file_head [7, 8, 9] rsGreedy wsOne (fun _ => Int.one_pos)).1

/-- C2: evaluation of option processing at "-f 1 -l 2" with no -d.
Because case 'l' in the getopt switch of main lacks a break and falls
through into case 'd', the -l option also sets do_fork, so this invocation
daemonizes, although the claim (and the usage text of the program itself)
says that only -d daemonizes and that -f with -l stays in the foreground:
the resulting configuration has doFork = true. -/
theorem c2_l_flag_sets_do_fork :
    parseOpts [Opt.f 1, Opt.l 2] defaultConfig
      = ParseOutcome.ok { port := 843, policyFile := some 1, logFile := some 2, doFork := true } := by
  decide

/-- C3: send_policy writes the policy buffer looping on partial writes,
always resuming at the next unwritten byte (the bytes on the wire are
exactly an initial segment of the buffer, never resent or skipped), writes
the whole buffer when every write result is positive, aborts all further
writing on a negative write result, and the connection is closed
unconditionally afterwards in every case. -/
theorem c3_partial_writes_and_unconditional_close (policy : List Nat) (ws : Nat → Int) :
    (handleConnection policy ws).2.2 = true
    ∧ (handleConnection policy ws).1 = policy.take (handleConnection policy ws).1.length
    ∧ ((∀ i, 0 < ws i) → (handleConnection policy ws).1 = policy)
    ∧ (∀ fuel i sent, sent < policy.length → ws i < 0 →
        sendPolicyGo policy ws (fuel + 1) i sent = ([], [LogEvent.perrorWrite])) := by
  refine ⟨rfl, sendPolicy_is_take policy ws, fun h => sendPolicy_all_pos policy ws h, ?_⟩
  intro fuel i sent hs hneg
  simp [sendPolicyGo, hs, hneg]

/-- Witness for C3: a two-byte policy written one byte per call is
delivered whole and the connection is closed. -/
theorem c3_witness :
    (handleConnection [5, 6] wsOne).2.2 = true ∧ (handleConnection [5, 6] wsOne).1 = [5, 6] :=
  ⟨(c3_partial_writes_and_unconditional_close [5, 6] wsOne).1,
   (c3_partial_writes_and_unconditional_close [5, 6] wsOne).2.2.1 (fun _ => Int.one_pos)⟩

/-- C4: when accept fails while the loop is running, the error is logged
first (the log_errno line heads the emitted events); on EINTR or EAGAIN
the loop continues, re-checking the Running Flag by recursing into the
remaining iterations; any other errno breaks the loop with no further
connections served. -/
theorem c4_accept_failure_classification (st : DaemonState) (e : Errno)
    (rest : List LoopEvent) (hrun : st.running = true) :
    (runLoop st (LoopEvent.accept (AcceptResult.err e) :: rest)).2.1.head?
        = some (LogEvent.logAcceptErr e)
    ∧ ((e = Errno.eintr ∨ e = Errno.eagain) →
        runLoop st (LoopEvent.accept (AcceptResult.err e) :: rest)
          = ((runLoop st rest).1,
             LogEvent.logAcceptErr e :: (runLoop st rest).2.1,
             (runLoop st rest).2.2))
    ∧ (¬ (e = Errno.eintr ∨ e = Errno.eagain) →
        runLoop st (LoopEvent.accept (AcceptResult.err e) :: rest)
          = (st, [LogEvent.logAcceptErr e], [])) := by
  by_cases he : e = Errno.eintr ∨ e = Errno.eagain
  · refine ⟨?_, fun _ => ?_, fun h => absurd he h⟩
    · simp [runLoop, hrun, he]
    · simp [runLoop, hrun, he]
  · refine ⟨?_, fun h => absurd h he, fun _ => ?_⟩
    · simp [runLoop, hrun, he]
    · simp [runLoop, hrun, he]

/-- Witness for C4: an EINTR accept failure is logged and the loop
continues (here: runs out of further events with the flag still set). -/
theorem c4_witness :
    runLoop { running := true, policy := [] } [LoopEvent.accept (AcceptResult.err Errno.eintr)]
      = ({ running := true, policy := [] }, [LogEvent.logAcceptErr Errno.eintr], []) :=
  (c4_accept_failure_classification { running := true, policy := [] } Errno.eintr [] rfl).2.1
    (Or.inl rfl)

/-- C5: serving is idempotent across a process lifetime: no operation of
the serving loop (serving a connection, logging, or any signal handler)
ever mutates the policy buffer, and any two connections of the same run
whose transport accepts the writes receive identical byte sequences. -/
theorem c5_policy_never_mutated_idempotent (st : DaemonState) (evs : List LoopEvent) :
    (runLoop st evs).1.policy = st.policy
    ∧ (sigint_handler st).1.policy = st.policy
    ∧ (sighup_handler st).1.policy = st.policy
    ∧ (sigterm_handler st).1.policy = st.policy
    ∧ ((∀ ev ∈ evs, connWritesOk ev) → List.Pairwise Eq (runLoop st evs).2.2) := by
  refine ⟨runLoop_policy evs st, rfl, rfl, rfl, ?_⟩
  intro hok
  exact pairwise_eq_of_all_eq st.policy _ (runLoop_served evs st hok)

/-- Witness for C5: two successive connections of one run receive
pairwise identical payloads. -/
theorem c5_witness :
    List.Pairwise Eq
      (runLoop { running := true, policy := [3, 4] }
        [LoopEvent.accept (AcceptResult.conn 7 wsOne),
         LoopEvent.accept (AcceptResult.conn 8 wsOne)]).2.2 := by
  have hok : ∀ ev ∈ [LoopEvent.accept (AcceptResult.conn 7 wsOne),
      LoopEvent.accept (AcceptResult.conn 8 wsOne)], connWritesOk ev := by
    intro ev hev
    rcases List.mem_cons.mp hev with h | hev2
    · subst h; exact fun _ => Int.one_pos
    · rcases List.mem_cons.mp hev2 with h | h3
      · subst h; exact fun _ => Int.one_pos
      · exact absurd h3 (List.not_mem_nil ev)
  exact (c5_policy_never_mutated_idempotent { running := true, policy := [3, 4] } _).2.2.2.2 hok

/-- C6 counterexample: at a one-byte policy whose first write fails, the
handler emits exactly the perror("write") standard-error report, and none
of its emitted events goes through the Logger, contradicting the claim
that in the final revision the negative-result write is logged via the
Logger (a timestamped log line to the configured log sink). -/
theorem c6_counterexample_not_via_logger :
    sendPolicy [5] wsNeg = ([], [LogEvent.perrorWrite])
    ∧ List.any (sendPolicy [5] wsNeg).2 viaLogger = false := by
  decide

/-- C6 amended: in the final revision, a negative-result write is reported
with perror on standard error (not through the timestamped Logger) and
aborts the handler for that connection, and a zero-byte write with data
still remaining is treated as an anomalous condition reported on standard
error and likewise aborts the handler; neither report goes through the
Logger. -/
theorem c6_write_errors_on_stderr (policy : List Nat) (ws : Nat → Int)
    (fuel i sent : Nat) (hs : sent < policy.length) :
    (ws i < 0 → sendPolicyGo policy ws (fuel + 1) i sent = ([], [LogEvent.perrorWrite]))
    ∧ (ws i = 0 → sendPolicyGo policy ws (fuel + 1) i sent = ([], [LogEvent.stderrZeroWrite]))
    ∧ viaLogger LogEvent.perrorWrite = false
    ∧ viaLogger LogEvent.stderrZeroWrite = false := by
  refine ⟨?_, ?_, rfl, rfl⟩
  · intro h; simp [sendPolicyGo, hs, h]
  · intro h; simp [sendPolicyGo, hs, h]

/-- Witness for C6 at a failing first write on a one-byte policy. -/
theorem c6_witness :
    sendPolicyGo [5] wsNeg 1 0 0 = ([], [LogEvent.perrorWrite]) :=
  (c6_write_errors_on_stderr [5] wsNeg 0 0 0 (by decide)).1 (by decide)

/-- C7 counterexample: a -p argument that atoi parses to zero makes the
process print the "Invalid port" diagnostic on standard error and exit
with status 1, but usage() is not printed (the outcome records
usageShown = false), contradicting the claim that an invalid port causes
a usage message. -/
theorem c7_counterexample_no_usage_for_bad_port :
    parseOpts [Opt.p 0] defaultConfig = ParseOutcome.exit1 false StartupMsg.invalidPort
    ∧ parseOpts [Opt.p 0] defaultConfig ≠ ParseOutcome.exit1 true StartupMsg.invalidPort := by
  decide

/-- C7 amended: a -p value that parses to zero causes an "Invalid port"
diagnostic on standard error and exit status 1 before any listener is
created, but no usage message; a missing -f and an unrecognized flag each
cause a usage message on standard error and exit status 1, likewise
before any listener is created. -/
theorem c7_startup_failures_exit_before_listener (v : Int) (rest : List Opt)
    (rsched : Nat → Nat) (file : List Nat) (hv : v % 65536 = 0) :
    parseOpts (Opt.p v :: rest) defaultConfig = ParseOutcome.exit1 false StartupMsg.invalidPort
    ∧ startupServing (Opt.p v :: rest) rsched file = StartupOutcome.earlyExit 1 false false
    ∧ (∀ rest2, startupServing (Opt.unknown :: rest2) rsched file
        = StartupOutcome.earlyExit 1 true false)
    ∧ startupServing [] rsched file = StartupOutcome.earlyExit 1 true false := by
  have h0 : (v % 65536).toNat = 0 := by omega
  refine ⟨?_, ?_, ?_, ?_⟩
  · simp [parseOpts, h0]
  · simp [startupServing, parseOpts, h0]
  · intro rest2; simp [startupServing, parseOpts]
  · simp [startupServing, parseOpts, defaultConfig]

/-- Witness for C7 at -p 0. -/
theorem c7_witness :
    parseOpts [Opt.p (0 : Int)] defaultConfig = ParseOutcome.exit1 false StartupMsg.invalidPort
    ∧ startupServing [Opt.p (0 : Int)] rsGreedy [] = StartupOutcome.earlyExit 1 false false := by
  have h := c7_startup_failures_exit_before_listener 0 [] rsGreedy [] (by decide)
  exact ⟨h.1, h.2.1⟩

/-- C8: a SIGHUP delivered while the loop is running never terminates the
process and never changes what later clients receive: the handler leaves
the entire state (Running Flag and policy buffer) untouched and emits
exactly one log line, and the loop proceeds over the remaining events
exactly as it would have without the signal, serving identical content. -/
theorem c8_sighup_is_ignored (st : DaemonState) (rest : List LoopEvent)
    (hrun : st.running = true) :
    (sighup_handler st).1 = st
    ∧ (sighup_handler st).2 = [LogEvent.logSighup]
    ∧ runLoop st (LoopEvent.signal Sig.hup :: rest)
        = ((runLoop st rest).1,
           LogEvent.logSighup :: (runLoop st rest).2.1,
           (runLoop st rest).2.2) := by
  refine ⟨rfl, rfl, ?_⟩
  simp [runLoop, hrun, sigHandle, sighup_handler]

/-- Witness for C8: one SIGHUP, no further events. -/
theorem c8_witness :
    runLoop { running := true, policy := [9] } [LoopEvent.signal Sig.hup]
      = ({ running := true, policy := [9] }, [LogEvent.logSighup], []) :=
  (c8_sighup_is_ignored { running := true, policy := [9] } [] rfl).2.2

/-- C9: an empty policy file is accepted at startup: the load succeeds
with a zero-length buffer, startup enters the serving loop normally, the
write loop body never executes for any write schedule (no bytes written
and no write events emitted), and the connection is closed. -/
theorem c9_empty_policy_file_ok (rsched : Nat → Nat) (ws : Nat → Int) :
    readPolicy rsched [] = []
    ∧ startupServing [Opt.f 1] rsched []
        = StartupOutcome.serving { defaultConfig with policyFile := some 1 } []
    ∧ sendPolicy [] ws = ([], [])
    ∧ (handleConnection [] ws).2.2 = true := by
  have hread : readPolicy rsched [] = [] := by
    simp [readPolicy, readPolicyGo]
  refine ⟨hread, ?_, rfl, rfl⟩
  simp [startupServing, parseOpts, hread]

/-- C10: the -p argument is stored into an unsigned short, i.e. reduced
modulo 2^16: a value congruent to 0 modulo 65536 is rejected as an
invalid port, and any other value is accepted silently, the daemon
continuing with port equal to the value mod 65536. -/
theorem c10_port_reduced_mod_u16 (v : Int) (rest : List Opt) (c : Config) :
    (v % 65536 = 0 →
      parseOpts (Opt.p v :: rest) c = ParseOutcome.exit1 false StartupMsg.invalidPort)
    ∧ (v % 65536 ≠ 0 →
      parseOpts (Opt.p v :: rest) c = parseOpts rest { c with port := (v % 65536).toNat }) := by
  constructor
  · intro h
    have h0 : (v % 65536).toNat = 0 := by omega
    simp [parseOpts, h0]
  · intro h
    have h0 : (v % 65536).toNat ≠ 0 := by
      have hnn := Int.emod_nonneg v (by norm_num : (65536 : Int) ≠ 0)
      omega
    simp [parseOpts, h0]

/-- Witness for C10: -p 65537 is accepted and processing continues with
port 65537 mod 65536 = 1. -/
theorem c10_witness :
    (65537 : Int) % 65536 ≠ 0
    ∧ ((65537 : Int) % 65536).toNat = 1
    ∧ parseOpts [Opt.p 65537] defaultConfig
      = parseOpts [] { defaultConfig with port := ((65537 : Int) % 65536).toNat } :=
  ⟨by decide, by decide, (c10_port_reduced_mod_u16 65537 [] defaultConfig).2 (by decide)⟩
